import Mathlib

/-!
Verification of the UOWC link-budget engine (src/UOWC/link.py, media.py,
modulation.py) against its natural-language specification.

Floating-point arithmetic is modelled over the reals; numpy's random samplers
are modelled by passing the underlying variates explicitly as a list, so that
stochastic code paths consume an explicit supply and deterministic paths leave
it untouched.
-/

namespace UOWC

noncomputable section

/-- Degrees to radians, as `np.deg2rad`. -/
def deg2rad (x : ℝ) : ℝ := x * Real.pi / 180

/-- Elementary charge `q = 1.602e-19` C, constant from `link.py`. -/
def q : ℝ := 1602 / 10 ^ 22

/-- Boltzmann constant `kB = 1.380649e-23` J/K, constant from `link.py`. -/
def kB : ℝ := 1380649 / 10 ^ 29

/-- Water medium, from `media.py` (`WaterType`): absorption and scattering
coefficients in 1/m. -/
structure WaterType where
  a_m1 : ℝ
  b_m1 : ℝ
  name : String

/-- Total Beer–Lambert attenuation `c = a + b`, from `media.py`. -/
def WaterType.c_m1 (w : WaterType) : ℝ := w.a_m1 + w.b_m1

/-- Optical transmitter description, from `link.py` (`Tx`). -/
structure Tx where
  Pt_w : ℝ
  eta_t : ℝ
  semi_angle_deg : ℝ
  is_laser : Bool
  theta_div_deg : ℝ
  m_lambert : Option ℝ

/-- Lambertian order `m = -ln 2 / ln (cos semi_angle)`, with the laser branch
returning a nominal 1.0 and an optional explicit override, from `Tx.lambert_m`. -/
def Tx.lambert_m (t : Tx) : ℝ :=
  if t.is_laser then 1
  else
    match t.m_lambert with
    | some m => m
    | none => -Real.log 2 / Real.log (Real.cos (deg2rad t.semi_angle_deg))

/-- Optical receiver and front-end parameters, from `link.py` (`Rx`). -/
structure Rx where
  R_A_per_W : ℝ
  A_pd_m2 : ℝ
  eta_r : ℝ
  T : ℝ
  R_load : ℝ

/-- Geometric arrangement, from `link.py` (`Geometry`). -/
structure Geometry where
  distance_m : ℝ
  theta_tx_deg : ℝ
  phi_incident_deg : ℝ
  fov_deg : ℝ
  G_tx_optics : ℝ
  n_concentrator : ℝ

/-- Idealized concentrator gain `n^2 / max(sin^2 FOV, 1e-12)`, from
`Geometry.rx_concentrator_gain`. -/
def Geometry.rx_concentrator_gain (g : Geometry) : ℝ :=
  g.n_concentrator ^ 2 /
    max (Real.sin (deg2rad g.fov_deg) * Real.sin (deg2rad g.fov_deg)) (1 / 10 ^ 12)

/-- Hard field-of-view cutoff: 1.0 inside the acceptance cone, 0.0 outside,
from `Geometry.fov_window`. -/
def Geometry.fov_window (g : Geometry) (phi_incident_deg : ℝ) : ℝ :=
  if |phi_incident_deg| ≤ g.fov_deg then 1 else 0

/-- Turbulence fading specification, from `link.py` (`Turbulence`). -/
structure Turbulence where
  model_name : String
  scint_index : ℝ
  gg_alpha : ℝ
  gg_beta : ℝ
  weibull_k : ℝ
  weibull_lambda : ℝ

/-- Empirical sample mean `np.mean` of a batch. -/
def sampleMean (l : List ℝ) : ℝ := l.sum / l.length

/-- Python's `str.lower()` on the ASCII model names used here, written as a
structural map over the characters. -/
def pyLower (s : String) : String := ⟨s.data.map Char.toLower⟩

/-- Fading-gain batch, from `Turbulence.fading_gain`.  The list `raws` supplies
the underlying random variates that numpy would draw (standard-normal variates
for the lognormal branch, gamma(shape, scale) draws for the gen-gamma branch,
standard Weibull(k) draws for the weibull branch); its length plays the role of
the `size` argument. -/
def Turbulence.fading_gain (t : Turbulence) (raws : List ℝ) : List ℝ :=
  if t.scint_index ≤ 0 then raws.map (fun _ => 1)
  else
    let name := pyLower t.model_name
    if name = "lognormal" then
      let sigmaX2 := Real.log (1 + t.scint_index)
      let mu := -(1 / 2) * sigmaX2
      raws.map (fun z => Real.exp (mu + Real.sqrt sigmaX2 * z))
    else if name = "gen-gamma" ∨ name = "generalized-gamma" then
      raws.map (fun g => g / sampleMean raws)
    else if name = "weibull" then
      let g := raws.map (fun x => x * t.weibull_lambda)
      g.map (fun x => x / sampleMean g)
    else raws.map (fun _ => 1)

/-- The link aggregate, from `link.py` (`Link`). -/
structure Link where
  water : WaterType
  tx : Tx
  rx : Rx
  geom : Geometry
  turb : Turbulence

/-- Numerator of the LED (Lambertian) geometric gain, from `Link._geom_gain_led`:
`((m+1)/(2π)) · cos(θ)^m · G_tx · G_rx · A_pd · max(cos φ, 0)`. -/
def Link.ledNum (l : Link) : ℝ :=
  (l.tx.lambert_m + 1) / (2 * Real.pi) *
      Real.cos (deg2rad l.geom.theta_tx_deg) ^ l.tx.lambert_m *
      l.geom.G_tx_optics * l.geom.rx_concentrator_gain * l.rx.A_pd_m2 *
      max (Real.cos (deg2rad l.geom.phi_incident_deg)) 0

/-- LED geometric gain, from `Link._geom_gain_led`:
`Π · max(num / max(2π d², 1e-24), 0)` with `Π` the FOV window. -/
def Link.geomGainLed (l : Link) : ℝ :=
  l.geom.fov_window l.geom.phi_incident_deg *
    max (l.ledNum /
      max (2 * Real.pi * l.geom.distance_m * l.geom.distance_m) (1 / 10 ^ 24)) 0

/-- Numerator of the laser geometric gain, from `Link._geom_gain_ld`:
`G_tx · G_rx · A_pd · max(cos φ, 0)`. -/
def Link.ldNum (l : Link) : ℝ :=
  l.geom.G_tx_optics * l.geom.rx_concentrator_gain * l.rx.A_pd_m2 *
    max (Real.cos (deg2rad l.geom.phi_incident_deg)) 0

/-- Denominator of the laser geometric gain, from `Link._geom_gain_ld`:
`π d² (tan²(max(θ_div, 0.5)) + 1e-12)`. -/
def Link.ldDenom (l : Link) : ℝ :=
  Real.pi * l.geom.distance_m * l.geom.distance_m *
    (Real.tan (deg2rad (max l.tx.theta_div_deg (1 / 2))) ^ 2 + 1 / 10 ^ 12)

/-- Laser geometric gain, from `Link._geom_gain_ld`. -/
def Link.geomGainLd (l : Link) : ℝ :=
  l.geom.fov_window l.geom.phi_incident_deg * max (l.ldNum / l.ldDenom) 0

/-- Received power, from `Link.received_power_W`:
`Pr = Pt · ηt · exp(-c d) · G_geom · ηr · g_turb`.  The random supply `rng` is
threaded through explicitly: the stochastic branch consumes exactly one variate
(`fading_gain(size=1)[0]`), the deterministic branch consumes none. -/
def Link.received_power_W (l : Link) (stochastic : Bool) (rng : List ℝ) :
    ℝ × List ℝ :=
  let Pt := l.tx.Pt_w * l.tx.eta_t
  let atten := Real.exp (-l.water.c_m1 * l.geom.distance_m)
  let G := if l.tx.is_laser then l.geomGainLd else l.geomGainLed
  if stochastic = true ∧ 0 < l.turb.scint_index then
    let g := (l.turb.fading_gain (rng.take 1)).headD 1
    (Pt * atten * G * l.rx.eta_r * g, rng.drop 1)
  else
    (Pt * atten * G * l.rx.eta_r * 1, rng)

/-- The four current-domain noise variances returned by `Link.noise_variances`
(the Python dict, in insertion order shot, thermal, dark, rin). -/
structure NoiseVars where
  shot : ℝ
  thermal : ℝ
  dark : ℝ
  rin : ℝ

/-- Sum of the dict values, as `sum(nv.values())` in `Link.snr_db`. -/
def NoiseVars.total (nv : NoiseVars) : ℝ := nv.shot + nv.thermal + nv.dark + nv.rin

/-- Noise model, from `Link.noise_variances`. -/
def Link.noise_variances (l : Link) (Pr_W bandwidth_Hz : ℝ) (rin : Option ℝ)
    (Idark_A Pbg_W R_apd_M F_excess : ℝ) : NoiseVars :=
  let R := l.rx.R_A_per_W * R_apd_M
  let B := bandwidth_Hz
  { shot := 2 * q * R * (Pr_W + Pbg_W) * B * F_excess
    thermal := 4 * kB * l.rx.T * B / max l.rx.R_load (1 / 10 ^ 3)
    dark := if 0 < Idark_A then 2 * q * Idark_A * B else 0
    rin :=
      match rin with
      | some r => (R * Pr_W) ^ 2 * B * r
      | none => 0 }

/-- The guarded linear SNR computed inside `Link.snr_db`:
`(R·Pr)² / max(σ², 1e-30)` at the deterministic received power. -/
def Link.snr_linear (l : Link) (bandwidth_Hz : ℝ) (rin : Option ℝ)
    (Idark_A Pbg_W R_apd_M F_excess : ℝ) : ℝ :=
  let Pr := (l.received_power_W false []).1
  let R := l.rx.R_A_per_W * R_apd_M
  let sig := (R * Pr) ^ 2
  let nv := l.noise_variances Pr bandwidth_Hz rin Idark_A Pbg_W R_apd_M F_excess
  sig / max nv.total (1 / 10 ^ 30)

/-- Electrical SNR in dB, from `Link.snr_db`:
`10·log10(sig/max(σ², 1e-30) + 1e-30)` with `Pr` evaluated deterministically
(`received_power_W()` default).  The untouched random supply is returned. -/
def Link.snr_db (l : Link) (bandwidth_Hz : ℝ) (rin : Option ℝ)
    (Idark_A Pbg_W R_apd_M F_excess : ℝ) (rng : List ℝ) : ℝ × List ℝ :=
  let pr := l.received_power_W false rng
  let Pr := pr.1
  let R := l.rx.R_A_per_W * R_apd_M
  let sig := (R * Pr) ^ 2
  let nv := l.noise_variances Pr bandwidth_Hz rin Idark_A Pbg_W R_apd_M F_excess
  let snr := sig / max nv.total (1 / 10 ^ 30)
  (10 * Real.logb 10 (snr + 1 / 10 ^ 30), pr.2)

/-- The error function `erf x = (2/√π) ∫ t in 0..x, exp (-t²)`, the function
computed by Python's `math.erf`. -/
def erf (x : ℝ) : ℝ := 2 / Real.sqrt Real.pi * ∫ t in (0:ℝ)..x, Real.exp (-t ^ 2)

/-- The complementary error function `erfc x = 1 - erf x`, exactly the
definition of Python's `math.erfc`. -/
def erfc (x : ℝ) : ℝ := 1 - erf x

/-- Gaussian tail function, from `modulation.py`: `qfunc x = 0.5·erfc(x/√2)`. -/
def qfunc (x : ℝ) : ℝ := 1 / 2 * erfc (x / Real.sqrt 2)

/-- OOK bit-error rate from SNR in dB, from `modulation.py`
(`ber_ook_from_snr_db`): `Q(√(10^(snr/10)))`. -/
def ber_ook_from_snr_db (snr_db : ℝ) : ℝ :=
  qfunc (Real.sqrt ((10 : ℝ) ^ (snr_db / 10)))

/-- Raw distribution batch before mean-normalization: the weibull branch scales
the standard draws by `weibull_lambda`, the gen-gamma branch uses the draws as
given (mirroring `Turbulence.fading_gain`). -/
def rawBatch (t : Turbulence) (raws : List ℝ) : List ℝ :=
  if pyLower t.model_name = "weibull" then raws.map (fun x => x * t.weibull_lambda)
  else raws

/-- Turbulence spec with an unrecognized model name, probing the error claim. -/
def turbBogus : Turbulence :=
  { model_name := "bogus", scint_index := 1 / 2, gg_alpha := 1, gg_beta := 1,
    weibull_k := 1, weibull_lambda := 1 }

/-- Turbulence spec with another unrecognized model name. -/
def turbMystery : Turbulence :=
  { model_name := "Mystery", scint_index := 2, gg_alpha := 1, gg_beta := 1,
    weibull_k := 1, weibull_lambda := 1 }

/-- Generalized-gamma turbulence spec used in concrete evaluations. -/
def turbGG : Turbulence :=
  { model_name := "gen-gamma", scint_index := 1 / 2, gg_alpha := 1, gg_beta := 1,
    weibull_k := 1, weibull_lambda := 1 }

/-- Zero-attenuation water used in concrete evaluations. -/
def waterZero : WaterType := { a_m1 := 0, b_m1 := 0, name := "zero" }

/-- A simple non-laser transmitter with explicit Lambertian order 1 and unit
power and optics efficiency. -/
def txLed : Tx :=
  { Pt_w := 1, eta_t := 1, semi_angle_deg := 60, is_laser := false,
    theta_div_deg := 9, m_lambert := some 1 }

/-- A laser transmitter with 45° divergence half-angle (so tan θ = 1). -/
def txLd : Tx :=
  { Pt_w := 1, eta_t := 1, semi_angle_deg := 60, is_laser := true,
    theta_div_deg := 45, m_lambert := none }

/-- Unit receiver whose detector area is π m², for clean arithmetic. -/
def rxUnit : Rx :=
  { R_A_per_W := 1, A_pd_m2 := Real.pi, eta_r := 1, T := 300, R_load := 50 }

/-- Receiver whose load resistance (1e-4 Ω) sits below the 1e-3 floor used in
the thermal-noise division. -/
def rxSmallLoad : Rx :=
  { R_A_per_W := 1, A_pd_m2 := 1, eta_r := 1, T := 300, R_load := 1 / 10 ^ 4 }

/-- Axial geometry at distance `d`: boresight transmitter, normal incidence,
90° field of view, unit optics gain and concentrator index 1. -/
def geomAxial (d : ℝ) : Geometry :=
  { distance_m := d, theta_tx_deg := 0, phi_incident_deg := 0, fov_deg := 90,
    G_tx_optics := 1, n_concentrator := 1 }

/-- Geometry whose incidence angle (50°) lies outside its field of view (10°). -/
def geomBlocked (d : ℝ) : Geometry :=
  { distance_m := d, theta_tx_deg := 0, phi_incident_deg := 50, fov_deg := 10,
    G_tx_optics := 1, n_concentrator := 1 }

/-- No-fading turbulence spec (scintillation index 0). -/
def turbNone : Turbulence :=
  { model_name := "lognormal", scint_index := 0, gg_alpha := 1, gg_beta := 1,
    weibull_k := 1, weibull_lambda := 1 }

/-- LED link on the axial geometry at distance `d`. -/
def linkLedAxial (d : ℝ) : Link :=
  { water := waterZero, tx := txLed, rx := rxUnit, geom := geomAxial d,
    turb := turbNone }

/-- LED link on the blocked geometry at distance `d`. -/
def linkLedBlocked (d : ℝ) : Link :=
  { water := waterZero, tx := txLed, rx := rxUnit, geom := geomBlocked d,
    turb := turbNone }

/-- Laser link on the axial geometry at distance `d`. -/
def linkLdAxial (d : ℝ) : Link :=
  { water := waterZero, tx := txLd, rx := rxUnit, geom := geomAxial d,
    turb := turbNone }

/-- Link whose load resistance is below the thermal-noise floor. -/
def linkSmallLoad : Link :=
  { water := waterZero, tx := txLed, rx := rxSmallLoad, geom := geomAxial 1,
    turb := turbNone }

/-- Axial LED link carrying generalized-gamma turbulence. -/
def linkTurbA : Link :=
  { water := waterZero, tx := txLed, rx := rxUnit, geom := geomAxial 1,
    turb := turbGG }

/-- The same link as `linkTurbA` with a different turbulence spec. -/
def linkTurbB : Link :=
  { water := waterZero, tx := txLed, rx := rxUnit, geom := geomAxial 1,
    turb := turbMystery }

/-- Degenerate geometry: zero distance and zero field of view. -/
def geomDegenerate : Geometry :=
  { distance_m := 0, theta_tx_deg := 0, phi_incident_deg := 0, fov_deg := 0,
    G_tx_optics := 1, n_concentrator := 1 }

/-- Link violating every claimed `InvalidGeometry` precondition at once:
zero distance, zero field of view and zero load resistance. -/
def linkDegenerate : Link :=
  { water := waterZero, tx := txLed,
    rx := { R_A_per_W := 1, A_pd_m2 := 1, eta_r := 1, T := 300, R_load := 0 },
    geom := geomDegenerate, turb := turbNone }

/-- The received power exactly as claim C1 states it:
`Pt·ηt·exp(−c·d)·G_geom·ηr` with `G_geom` the spec's wide-beam Lambertian gain
`(m+1)/(2π)·cos^m(θ_tx)·G_tx·G_rx·A_rx·cos(φ)/d²`, gated by the FOV window. -/
def specReceivedPowerLed (l : Link) : ℝ :=
  l.tx.Pt_w * l.tx.eta_t * Real.exp (-l.water.c_m1 * l.geom.distance_m) *
    (l.geom.fov_window l.geom.phi_incident_deg *
      ((l.tx.lambert_m + 1) / (2 * Real.pi) *
        Real.cos (deg2rad l.geom.theta_tx_deg) ^ l.tx.lambert_m *
        l.geom.G_tx_optics * l.geom.rx_concentrator_gain * l.rx.A_pd_m2 *
        Real.cos (deg2rad l.geom.phi_incident_deg) / l.geom.distance_m ^ 2)) *
    l.rx.eta_r

/-- The same link with the geometry's distance replaced — the code's way of
sweeping distance is constructing a fresh `Geometry` per point. -/
def Link.atDistance (l : Link) (d : ℝ) : Link :=
  { l with geom := { l.geom with distance_m := d } }

theorem sum_map_div (l : List ℝ) (c : ℝ) :
    (l.map (fun x => x / c)).sum = l.sum / c := by
  induction l with
  | nil => simp
  | cons a t ih => simp [ih, add_div]

theorem sampleMean_pos (l : List ℝ) (hne : l ≠ []) (hpos : ∀ x ∈ l, 0 < x) :
    0 < sampleMean l := by
  have hsum : 0 < l.sum := List.sum_pos l hpos hne
  have hlen : 0 < (l.length : ℝ) := by
    exact_mod_cast List.length_pos.mpr hne
  exact div_pos hsum hlen

theorem sampleMean_normalized (l : List ℝ) (hne : l ≠ []) (hsum : l.sum ≠ 0) :
    sampleMean (l.map (fun x => x / sampleMean l)) = 1 := by
  have hlen : (l.length : ℝ) ≠ 0 := by
    exact_mod_cast (List.length_pos.mpr hne).ne'
  unfold sampleMean
  rw [sum_map_div, List.length_map]
  field_simp

/-- C3 (counterexample): constructing fading gains for the unrecognized model
name "bogus" with positive scintillation index does not fail with an
`UnknownTurbulenceModel` error — no such error exists in the code — but
silently returns the all-ones batch. -/
theorem claim3_unknown_model_counterexample :
    turbBogus.fading_gain [2, 3, 4] = [1, 1, 1] := by
  have h0 : ¬ ((1 : ℝ) / 2 ≤ 0) := by norm_num
  simp only [Turbulence.fading_gain, turbBogus]
  rw [if_neg h0, if_neg (by decide), if_neg (by decide), if_neg (by decide)]
  rfl

/-- C3 (amended): an unrecognized turbulence model name is not rejected; the
generator silently returns the deterministic all-ones (no-fade) batch of the
requested size, for every scintillation index. -/
theorem claim3_unknown_model_ones (t : Turbulence) (raws : List ℝ)
    (h1 : pyLower t.model_name ≠ "lognormal")
    (h2 : pyLower t.model_name ≠ "gen-gamma")
    (h3 : pyLower t.model_name ≠ "generalized-gamma")
    (h4 : pyLower t.model_name ≠ "weibull") :
    t.fading_gain raws = raws.map (fun _ => 1) := by
  unfold Turbulence.fading_gain
  by_cases hs : t.scint_index ≤ 0
  · rw [if_pos hs]
  · rw [if_neg hs]
    simp only [if_neg h1, if_neg h4, if_neg (not_or.mpr ⟨h2, h3⟩)]

/-- C3 witness: the amended statement evaluated on the concrete unrecognized
model name "Mystery". -/
theorem claim3_unknown_model_ones_witness :
    turbMystery.fading_gain [5, 6] = [(1 : ℝ), 1] := by
  have h := claim3_unknown_model_ones turbMystery [5, 6]
    (by decide) (by decide) (by decide) (by decide)
  simpa using h

/-- C10: for generalized-gamma and Weibull turbulence with positive
scintillation index, the fading gains returned for a batch of positive raw
distribution draws are exactly the raw batch divided by its empirical sample
mean, so the realized batch has sample mean exactly 1. -/
theorem claim10_mean_normalization (t : Turbulence) (raws : List ℝ)
    (hs : 0 < t.scint_index)
    (hmodel : pyLower t.model_name = "gen-gamma" ∨
      pyLower t.model_name = "generalized-gamma" ∨
      pyLower t.model_name = "weibull")
    (hne : raws ≠ []) (hpos : ∀ x ∈ raws, 0 < x)
    (hlam : 0 < t.weibull_lambda) :
    t.fading_gain raws =
        (rawBatch t raws).map (fun x => x / sampleMean (rawBatch t raws)) ∧
      sampleMean (t.fading_gain raws) = 1 := by
  have hns : ¬ t.scint_index ≤ 0 := not_le.mpr hs
  rcases hmodel with h | h | h
  · have e1 : t.fading_gain raws = raws.map (fun x => x / sampleMean raws) := by
      unfold Turbulence.fading_gain
      rw [if_neg hns]
      simp only [h]
      rw [if_neg (by decide)]
      simp
    have e2 : rawBatch t raws = raws := by
      unfold rawBatch
      rw [h, if_neg (by decide)]
    refine ⟨by rw [e1, e2], ?_⟩
    rw [e1]
    exact sampleMean_normalized raws hne (ne_of_gt (List.sum_pos raws hpos hne))
  · have e1 : t.fading_gain raws = raws.map (fun x => x / sampleMean raws) := by
      unfold Turbulence.fading_gain
      rw [if_neg hns]
      simp only [h]
      rw [if_neg (by decide)]
      simp
    have e2 : rawBatch t raws = raws := by
      unfold rawBatch
      rw [h, if_neg (by decide)]
    refine ⟨by rw [e1, e2], ?_⟩
    rw [e1]
    exact sampleMean_normalized raws hne (ne_of_gt (List.sum_pos raws hpos hne))
  · have e2 : rawBatch t raws = raws.map (fun x => x * t.weibull_lambda) := by
      unfold rawBatch
      rw [h, if_pos rfl]
    have e1 : t.fading_gain raws =
        (raws.map (fun x => x * t.weibull_lambda)).map
          (fun x => x / sampleMean (raws.map (fun x => x * t.weibull_lambda))) := by
      unfold Turbulence.fading_gain
      rw [if_neg hns]
      simp only [h]
      rw [if_neg (by decide), if_neg (by decide)]
      simp
    have hne2 : raws.map (fun x => x * t.weibull_lambda) ≠ [] := by
      simpa using hne
    have hpos2 : ∀ x ∈ raws.map (fun x => x * t.weibull_lambda), 0 < x := by
      intro x hx
      rcases List.mem_map.mp hx with ⟨y, hy, rfl⟩
      exact mul_pos (hpos y hy) hlam
    refine ⟨by rw [e1, e2], ?_⟩
    rw [e1]
    exact sampleMean_normalized _ hne2
      (ne_of_gt (List.sum_pos _ hpos2 hne2))

theorem q_pos : 0 < q := by norm_num [q]

theorem kB_pos : 0 < kB := by norm_num [kB]

theorem deg2rad_zero : deg2rad 0 = 0 := by
  simp [deg2rad]

theorem deg2rad_ninety : deg2rad 90 = Real.pi / 2 := by
  rw [deg2rad]; ring

theorem waterZero_c : waterZero.c_m1 = 0 := by
  norm_num [waterZero, WaterType.c_m1]

theorem txLed_lambert : txLed.lambert_m = 1 := by
  simp [txLed, Tx.lambert_m]

theorem geomAxial_concentrator (d : ℝ) :
    (geomAxial d).rx_concentrator_gain = 1 := by
  have h : Real.sin (deg2rad (geomAxial d).fov_deg) = 1 := by
    rw [show (geomAxial d).fov_deg = 90 from rfl, deg2rad_ninety,
      Real.sin_pi_div_two]
  unfold Geometry.rx_concentrator_gain
  rw [h]
  norm_num [geomAxial]

theorem geomAxial_window (d x : ℝ) (hx : |x| ≤ 90) :
    (geomAxial d).fov_window x = 1 := by
  simp only [Geometry.fov_window, geomAxial]
  rw [if_pos hx]

/-- The FOV window passes inside the acceptance cone. -/
theorem fov_window_pass (g : Geometry) (h : |g.phi_incident_deg| ≤ g.fov_deg) :
    g.fov_window g.phi_incident_deg = 1 := if_pos h

/-- The FOV window blocks outside the acceptance cone. -/
theorem fov_window_block (g : Geometry) (h : g.fov_deg < |g.phi_incident_deg|) :
    g.fov_window g.phi_incident_deg = 0 := if_neg (not_le.mpr h)

/-- The deterministic branch of `received_power_W`: no turbulence draw is taken
and the random supply is returned unchanged. -/
theorem received_power_det (l : Link) (rng : List ℝ) :
    l.received_power_W false rng =
      (l.tx.Pt_w * l.tx.eta_t * Real.exp (-l.water.c_m1 * l.geom.distance_m) *
        (if l.tx.is_laser then l.geomGainLd else l.geomGainLed) * l.rx.eta_r * 1,
        rng) := by
  unfold Link.received_power_W
  rw [if_neg]
  rintro ⟨h, -⟩
  exact Bool.false_ne_true h

/-- `snr_db` in terms of the guarded linear SNR; the random supply is threaded
through unchanged. -/
theorem snr_db_eq (l : Link) (B : ℝ) (rin : Option ℝ) (Idark Pbg Rapd F : ℝ)
    (rng : List ℝ) :
    l.snr_db B rin Idark Pbg Rapd F rng =
      (10 * Real.logb 10 (l.snr_linear B rin Idark Pbg Rapd F + 1 / 10 ^ 30),
        rng) := by
  unfold Link.snr_db Link.snr_linear
  rw [received_power_det, received_power_det]

/-- The guarded linear SNR does not depend on the turbulence spec. -/
theorem snr_linear_turb_invariant (w : WaterType) (t : Tx) (r : Rx)
    (g : Geometry) (tb1 tb2 : Turbulence) (B : ℝ) (rin : Option ℝ)
    (Idark Pbg Rapd F : ℝ) :
    (Link.mk w t r g tb1).snr_linear B rin Idark Pbg Rapd F =
      (Link.mk w t r g tb2).snr_linear B rin Idark Pbg Rapd F := by
  simp [Link.snr_linear, received_power_det, Link.noise_variances,
    Link.geomGainLd, Link.geomGainLed, Link.ldNum, Link.ldDenom, Link.ledNum]

theorem linkLedAxial_ledNum (d : ℝ) : (linkLedAxial d).ledNum = 1 := by
  unfold Link.ledNum
  rw [show (linkLedAxial d).tx = txLed from rfl,
    show (linkLedAxial d).geom = geomAxial d from rfl,
    show (linkLedAxial d).rx = rxUnit from rfl,
    txLed_lambert, geomAxial_concentrator,
    show (geomAxial d).theta_tx_deg = 0 from rfl,
    show (geomAxial d).phi_incident_deg = 0 from rfl,
    deg2rad_zero, Real.cos_zero, Real.one_rpow,
    show (geomAxial d).G_tx_optics = 1 from rfl,
    show rxUnit.A_pd_m2 = Real.pi from rfl,
    max_eq_left zero_le_one]
  field_simp
  norm_num

theorem linkLedAxial_gainLed (d : ℝ)
    (hd : 1 / 10 ^ 24 ≤ 2 * Real.pi * d * d) :
    (linkLedAxial d).geomGainLed = 1 / (2 * Real.pi * d * d) := by
  have hpos : (0 : ℝ) < 2 * Real.pi * d * d :=
    lt_of_lt_of_le (by norm_num) hd
  unfold Link.geomGainLed
  rw [show (linkLedAxial d).geom = geomAxial d from rfl,
    show (geomAxial d).phi_incident_deg = 0 from rfl,
    show (geomAxial d).distance_m = d from rfl,
    geomAxial_window d 0 (by norm_num), linkLedAxial_ledNum,
    max_eq_left hd, one_mul,
    max_eq_left (le_of_lt (div_pos one_pos hpos))]

theorem linkLedAxial_received (d : ℝ)
    (hd : 1 / 10 ^ 24 ≤ 2 * Real.pi * d * d) :
    ((linkLedAxial d).received_power_W false []).1 =
      1 / (2 * Real.pi * d * d) := by
  rw [received_power_det]
  dsimp only
  rw [show (linkLedAxial d).tx = txLed from rfl,
    show (linkLedAxial d).water = waterZero from rfl,
    show (linkLedAxial d).rx = rxUnit from rfl, waterZero_c]
  rw [show txLed.is_laser = false from rfl]
  simp only [Bool.false_eq_true, if_false]
  rw [linkLedAxial_gainLed d hd,
    show txLed.Pt_w = 1 from rfl, show txLed.eta_t = 1 from rfl,
    show rxUnit.eta_r = 1 from rfl, neg_zero, zero_mul, Real.exp_zero]
  ring

theorem linkLedAxial_spec (d : ℝ) (hd : d ≠ 0) :
    specReceivedPowerLed (linkLedAxial d) = 1 / d ^ 2 := by
  unfold specReceivedPowerLed
  rw [show (linkLedAxial d).tx = txLed from rfl,
    show (linkLedAxial d).water = waterZero from rfl,
    show (linkLedAxial d).rx = rxUnit from rfl,
    show (linkLedAxial d).geom = geomAxial d from rfl,
    waterZero_c, txLed_lambert, geomAxial_concentrator,
    show (geomAxial d).phi_incident_deg = 0 from rfl,
    show (geomAxial d).theta_tx_deg = 0 from rfl,
    show (geomAxial d).distance_m = d from rfl,
    geomAxial_window d 0 (by norm_num),
    deg2rad_zero, Real.cos_zero, Real.one_rpow,
    show (geomAxial d).G_tx_optics = 1 from rfl,
    show rxUnit.A_pd_m2 = Real.pi from rfl,
    show txLed.Pt_w = 1 from rfl, show txLed.eta_t = 1 from rfl,
    show rxUnit.eta_r = 1 from rfl,
    neg_zero, zero_mul, Real.exp_zero]
  field_simp
  norm_num

/-- C1 (counterexample): at a concrete axial LED link at 1 m, the code's
deterministic received power is `1/(2π)` whereas the claim's formula gives
`1` — the code divides by an additional `2π` beyond the claimed gain. -/
theorem claim1_spec_gain_counterexample :
    ((linkLedAxial 1).received_power_W false []).1 ≠
      specReceivedPowerLed (linkLedAxial 1) := by
  have hπ := Real.pi_gt_three
  have h1 : ((linkLedAxial 1).received_power_W false []).1 =
      1 / (2 * Real.pi * 1 * 1) :=
    linkLedAxial_received 1 (by nlinarith)
  have h2 : specReceivedPowerLed (linkLedAxial 1) = 1 / (1 : ℝ) ^ 2 :=
    linkLedAxial_spec 1 one_ne_zero
  rw [h1, h2]
  intro h
  rw [div_eq_div_iff (by nlinarith) (by norm_num)] at h
  nlinarith

/-- C1 (amended): for a non-laser link evaluated deterministically, the
received power equals `Pt·ηt·exp(−c·d)·G_geom·ηr` with `g_turb = 1`, where
`G_geom` carries an additional factor `1/(2π)` relative to the claimed gain:
`G_geom = (m+1)/(2π)·cos^m(θ_tx)·G_tx·G_rx·A_rx·cos(φ)/(2π·d²)`, gated by the
FOV window — stated on the guarded parameter range (window passing,
nonnegative gain factors, `2π·d²` at or above its 1e-24 floor). -/
theorem claim1_received_power_led_formula (l : Link) (rng : List ℝ)
    (hlaser : l.tx.is_laser = false)
    (hfov : |l.geom.phi_incident_deg| ≤ l.geom.fov_deg)
    (hcos : 0 ≤ Real.cos (deg2rad l.geom.phi_incident_deg))
    (hm : 0 ≤ l.tx.lambert_m + 1)
    (hcth : 0 ≤ Real.cos (deg2rad l.geom.theta_tx_deg))
    (hgtx : 0 ≤ l.geom.G_tx_optics) (hA : 0 ≤ l.rx.A_pd_m2)
    (hd : 1 / 10 ^ 24 ≤ 2 * Real.pi * l.geom.distance_m * l.geom.distance_m) :
    (l.received_power_W false rng).1 =
      l.tx.Pt_w * l.tx.eta_t *
        Real.exp (-l.water.c_m1 * l.geom.distance_m) *
        ((l.tx.lambert_m + 1) / (2 * Real.pi) *
          Real.cos (deg2rad l.geom.theta_tx_deg) ^ l.tx.lambert_m *
          l.geom.G_tx_optics * l.geom.rx_concentrator_gain * l.rx.A_pd_m2 *
          Real.cos (deg2rad l.geom.phi_incident_deg) /
          (2 * Real.pi * l.geom.distance_m ^ 2)) *
        l.rx.eta_r := by
  have hpos : (0 : ℝ) < 2 * Real.pi * l.geom.distance_m * l.geom.distance_m :=
    lt_of_lt_of_le (by norm_num) hd
  have hGrx : 0 ≤ l.geom.rx_concentrator_gain := by
    unfold Geometry.rx_concentrator_gain
    exact div_nonneg (sq_nonneg _)
      (le_trans (by norm_num) (le_max_right _ _))
  have hnum : 0 ≤ l.ledNum := by
    unfold Link.ledNum
    have h2π : (0 : ℝ) ≤ 2 * Real.pi := by positivity
    exact mul_nonneg (mul_nonneg (mul_nonneg (mul_nonneg
      (mul_nonneg (div_nonneg hm h2π) (Real.rpow_nonneg hcth _)) hgtx)
      hGrx) hA) (le_max_right _ _)
  rw [received_power_det]
  dsimp only
  rw [hlaser]
  simp only [Bool.false_eq_true, if_false]
  unfold Link.geomGainLed
  rw [fov_window_pass l.geom hfov, max_eq_left hd, one_mul,
    max_eq_left (div_nonneg hnum hpos.le)]
  unfold Link.ledNum
  rw [max_eq_left hcos, pow_two]
  ring

/-- C1 witness: the amended formula instantiated at the axial LED link at 2 m,
where it evaluates to `1/(8π)`. -/
theorem claim1_received_power_led_formula_witness :
    ((linkLedAxial 2).received_power_W false []).1 = 1 / (8 * Real.pi) := by
  have hπ := Real.pi_gt_three
  have h := claim1_received_power_led_formula (linkLedAxial 2) [] rfl
    (by
      rw [show (linkLedAxial 2).geom.phi_incident_deg = 0 from rfl,
        show (linkLedAxial 2).geom.fov_deg = 90 from rfl]
      norm_num)
    (by
      rw [show (linkLedAxial 2).geom.phi_incident_deg = 0 from rfl,
        deg2rad_zero, Real.cos_zero]
      norm_num)
    (by
      rw [show (linkLedAxial 2).tx = txLed from rfl, txLed_lambert]
      norm_num)
    (by
      rw [show (linkLedAxial 2).geom.theta_tx_deg = 0 from rfl,
        deg2rad_zero, Real.cos_zero]
      norm_num)
    (by
      rw [show (linkLedAxial 2).geom.G_tx_optics = 1 from rfl]
      norm_num)
    (by
      rw [show (linkLedAxial 2).rx.A_pd_m2 = Real.pi from rfl]
      positivity)
    (by
      rw [show (linkLedAxial 2).geom.distance_m = 2 from rfl]
      nlinarith)
  rw [h]
  rw [show (linkLedAxial 2).tx = txLed from rfl,
    show (linkLedAxial 2).water = waterZero from rfl,
    show (linkLedAxial 2).rx = rxUnit from rfl,
    show (linkLedAxial 2).geom = geomAxial 2 from rfl,
    waterZero_c, txLed_lambert, geomAxial_concentrator,
    show (geomAxial 2).phi_incident_deg = 0 from rfl,
    show (geomAxial 2).theta_tx_deg = 0 from rfl,
    show (geomAxial 2).distance_m = 2 from rfl,
    deg2rad_zero, Real.cos_zero, Real.one_rpow,
    show (geomAxial 2).G_tx_optics = 1 from rfl,
    show rxUnit.A_pd_m2 = Real.pi from rfl,
    show txLed.Pt_w = 1 from rfl, show txLed.eta_t = 1 from rfl,
    show rxUnit.eta_r = 1 from rfl,
    neg_zero, zero_mul, Real.exp_zero]
  field_simp
  ring

/-- Blocked FOV zeroes the received power for both transmitter types. -/
theorem received_power_blocked (l : Link) (s : Bool) (rng : List ℝ)
    (h : l.geom.fov_deg < |l.geom.phi_incident_deg|) :
    (l.received_power_W s rng).1 = 0 := by
  have hled : l.geomGainLed = 0 := by
    unfold Link.geomGainLed
    rw [fov_window_block l.geom h, zero_mul]
  have hld : l.geomGainLd = 0 := by
    unfold Link.geomGainLd
    rw [fov_window_block l.geom h, zero_mul]
  unfold Link.received_power_W
  split <;> simp only [hled, hld, mul_zero, zero_mul, ite_self] <;>
    split <;> rfl

/-- C4: hard binary FOV cutoff with no soft roll-off, for both transmitter
types: whenever `|φ| > FOV` the received power is exactly 0, and whenever
`|φ| ≤ FOV` both geometric gains contribute their full (ungated) value. -/
theorem claim4_fov_hard_cutoff (l : Link) (s : Bool) (rng : List ℝ) :
    (l.geom.fov_deg < |l.geom.phi_incident_deg| →
      (l.received_power_W s rng).1 = 0) ∧
    (|l.geom.phi_incident_deg| ≤ l.geom.fov_deg →
      l.geomGainLed =
          max (l.ledNum /
            max (2 * Real.pi * l.geom.distance_m * l.geom.distance_m)
              (1 / 10 ^ 24)) 0 ∧
        l.geomGainLd = max (l.ldNum / l.ldDenom) 0) := by
  refine ⟨received_power_blocked l s rng, fun h => ⟨?_, ?_⟩⟩
  · unfold Link.geomGainLed
    rw [fov_window_pass l.geom h, one_mul]
  · unfold Link.geomGainLd
    rw [fov_window_pass l.geom h, one_mul]

/-- C4 witness: concrete blocked (φ = 50°, FOV = 10°) and passing (φ = 0°,
FOV = 90°) links. -/
theorem claim4_fov_hard_cutoff_witness :
    ((linkLedBlocked 1).received_power_W false []).1 = 0 ∧
      (linkLedAxial 1).geomGainLed =
        max ((linkLedAxial 1).ledNum /
          max (2 * Real.pi * (linkLedAxial 1).geom.distance_m *
            (linkLedAxial 1).geom.distance_m) (1 / 10 ^ 24)) 0 :=
  ⟨(claim4_fov_hard_cutoff (linkLedBlocked 1) false []).1
      (by
        show (10 : ℝ) < |(50 : ℝ)|
        rw [abs_of_nonneg] <;> norm_num),
    ((claim4_fov_hard_cutoff (linkLedAxial 1) false []).2
      (by
        show |(0 : ℝ)| ≤ (90 : ℝ)
        rw [abs_of_nonneg] <;> norm_num)).1⟩

/-- C2 (counterexample): at the zero-distance, zero-FOV, zero-load link every
claimed `InvalidGeometry` precondition is violated at once, yet no failure
occurs: the LED geometric gain evaluates to the definite value `10^36/π`. -/
theorem claim2_zero_distance_counterexample :
    linkDegenerate.geom.distance_m = 0 ∧
      linkDegenerate.rx.R_load = 0 ∧
      linkDegenerate.geom.fov_deg = 0 ∧
      linkDegenerate.geomGainLed = 10 ^ 36 / Real.pi := by
  refine ⟨rfl, rfl, rfl, ?_⟩
  have hwin : linkDegenerate.geom.fov_window
      linkDegenerate.geom.phi_incident_deg = 1 := by
    apply fov_window_pass
    show |(0 : ℝ)| ≤ (0 : ℝ)
    simp
  have hcon : linkDegenerate.geom.rx_concentrator_gain = 10 ^ 12 := by
    unfold Geometry.rx_concentrator_gain
    rw [show linkDegenerate.geom.fov_deg = 0 from rfl, deg2rad_zero,
      Real.sin_zero]
    norm_num [linkDegenerate, geomDegenerate]
  have hnum : linkDegenerate.ledNum = 10 ^ 12 / Real.pi := by
    unfold Link.ledNum
    rw [show linkDegenerate.tx = txLed from rfl, txLed_lambert, hcon]
    rw [show linkDegenerate.geom.theta_tx_deg = 0 from rfl,
      show linkDegenerate.geom.phi_incident_deg = 0 from rfl,
      deg2rad_zero, Real.cos_zero, Real.one_rpow]
    rw [show linkDegenerate.rx.A_pd_m2 = 1 from rfl,
      show linkDegenerate.geom.G_tx_optics = 1 from rfl]
    rw [max_eq_left zero_le_one]
    field_simp
    ring
  unfold Link.geomGainLed
  rw [hwin, hnum, show linkDegenerate.geom.distance_m = 0 from rfl]
  rw [show (2 * Real.pi * 0 * 0 : ℝ) = 0 by ring]
  rw [show max (0 : ℝ) (1 / 10 ^ 24) = 1 / 10 ^ 24 from max_eq_right (by norm_num)]
  rw [max_eq_left (by positivity), one_mul, div_div_eq_mul_div, div_one]
  ring

/-- C2 (amended): there is no `InvalidGeometry` failure; zero distance,
non-positive load resistance and a degenerate field of view are absorbed by
silent numeric floors and each evaluation returns a definite value: the
distance-squared denominator is floored at 1e-24, the load resistance at 1e-3
in the thermal-noise division, and sin²(FOV) at 1e-12 in the concentrator
gain. -/
theorem claim2_guards_not_errors (l : Link) (Pr B : ℝ) (rin : Option ℝ)
    (Idark Pbg Rapd F : ℝ)
    (hd : l.geom.distance_m = 0)
    (hR : l.rx.R_load ≤ 1 / 10 ^ 3)
    (hfov : Real.sin (deg2rad l.geom.fov_deg) *
      Real.sin (deg2rad l.geom.fov_deg) ≤ 1 / 10 ^ 12) :
    l.geomGainLed =
        l.geom.fov_window l.geom.phi_incident_deg *
          max (l.ledNum * 10 ^ 24) 0 ∧
      (l.noise_variances Pr B rin Idark Pbg Rapd F).thermal =
        4 * kB * l.rx.T * B * 10 ^ 3 ∧
      l.geom.rx_concentrator_gain = l.geom.n_concentrator ^ 2 * 10 ^ 12 := by
  refine ⟨?_, ?_, ?_⟩
  · unfold Link.geomGainLed
    rw [hd, show (2 * Real.pi * 0 * 0 : ℝ) = 0 by ring]
    rw [show max (0 : ℝ) (1 / 10 ^ 24) = 1 / 10 ^ 24 from
      max_eq_right (by norm_num)]
    rw [div_div_eq_mul_div, div_one]
  · show 4 * kB * l.rx.T * B / max l.rx.R_load (1 / 10 ^ 3) =
      4 * kB * l.rx.T * B * 10 ^ 3
    rw [max_eq_right hR, div_eq_mul_inv]
    norm_num
  · unfold Geometry.rx_concentrator_gain
    rw [max_eq_right hfov, div_eq_mul_inv]
    norm_num

/-- C2 witness: the amended statement at the degenerate link. -/
theorem claim2_guards_not_errors_witness :
    linkDegenerate.geomGainLed =
        linkDegenerate.geom.fov_window linkDegenerate.geom.phi_incident_deg *
          max (linkDegenerate.ledNum * 10 ^ 24) 0 ∧
      (linkDegenerate.noise_variances 1 1 none 0 0 1 1).thermal =
        4 * kB * linkDegenerate.rx.T * 1 * 10 ^ 3 ∧
      linkDegenerate.geom.rx_concentrator_gain =
        linkDegenerate.geom.n_concentrator ^ 2 * 10 ^ 12 :=
  claim2_guards_not_errors linkDegenerate 1 1 none 0 0 1 1 rfl
    (by norm_num [linkDegenerate])
    (by
      rw [show linkDegenerate.geom.fov_deg = 0 from rfl, deg2rad_zero,
        Real.sin_zero]
      norm_num)

/-- C5 (counterexample): with the positive load resistance 1e-4 Ω, the code's
thermal noise is `4·kB·T·B/1e-3` (floored), not the claimed `4·kB·T·B/R_L`. -/
theorem claim5_thermal_counterexample :
    (linkSmallLoad.noise_variances 0 1 none 0 0 1 1).thermal ≠
      4 * kB * 300 * 1 / (1 / 10 ^ 4) := by
  simp only [Link.noise_variances, linkSmallLoad, rxSmallLoad]
  rw [max_eq_right (by norm_num)]
  norm_num [kB]

/-- C5 (amended): the four noise contributions equal the stated formulas with
the load resistance floored at 1e-3 in the thermal term; each is nonnegative
for nonnegative inputs, and the total variance used for SNR is their exact
sum with no covariance terms. -/
theorem claim5_noise_components (l : Link) (Pr B : ℝ) (rin : Option ℝ)
    (Idark Pbg Rapd F : ℝ)
    (hPr : 0 ≤ Pr) (hB : 0 ≤ B) (hPbg : 0 ≤ Pbg)
    (hR : 0 ≤ l.rx.R_A_per_W) (hRapd : 0 ≤ Rapd) (hT : 0 ≤ l.rx.T) (hF : 0 ≤ F)
    (hrin : ∀ s, rin = some s → 0 ≤ s) :
    (l.noise_variances Pr B rin Idark Pbg Rapd F).shot =
        2 * q * (l.rx.R_A_per_W * Rapd) * (Pr + Pbg) * B * F ∧
      (l.noise_variances Pr B rin Idark Pbg Rapd F).thermal =
        4 * kB * l.rx.T * B / max l.rx.R_load (1 / 10 ^ 3) ∧
      (l.noise_variances Pr B rin Idark Pbg Rapd F).dark =
        (if 0 < Idark then 2 * q * Idark * B else 0) ∧
      ((rin = none → (l.noise_variances Pr B rin Idark Pbg Rapd F).rin = 0) ∧
        ∀ s, rin = some s →
          (l.noise_variances Pr B rin Idark Pbg Rapd F).rin =
            (l.rx.R_A_per_W * Rapd * Pr) ^ 2 * B * s) ∧
      0 ≤ (l.noise_variances Pr B rin Idark Pbg Rapd F).shot ∧
      0 ≤ (l.noise_variances Pr B rin Idark Pbg Rapd F).thermal ∧
      0 ≤ (l.noise_variances Pr B rin Idark Pbg Rapd F).dark ∧
      0 ≤ (l.noise_variances Pr B rin Idark Pbg Rapd F).rin ∧
      (l.noise_variances Pr B rin Idark Pbg Rapd F).total =
        (l.noise_variances Pr B rin Idark Pbg Rapd F).shot +
          (l.noise_variances Pr B rin Idark Pbg Rapd F).thermal +
          (l.noise_variances Pr B rin Idark Pbg Rapd F).dark +
          (l.noise_variances Pr B rin Idark Pbg Rapd F).rin := by
  have h2q : (0 : ℝ) ≤ 2 * q := by norm_num [q]
  refine ⟨rfl, rfl, rfl, ⟨?_, ?_⟩, ?_, ?_, ?_, ?_, rfl⟩
  · rintro rfl
    rfl
  · rintro s rfl
    rfl
  · show 0 ≤ 2 * q * (l.rx.R_A_per_W * Rapd) * (Pr + Pbg) * B * F
    have h1 : 0 ≤ 2 * q * (l.rx.R_A_per_W * Rapd) * (Pr + Pbg) :=
      mul_nonneg (mul_nonneg h2q (mul_nonneg hR hRapd)) (by linarith)
    exact mul_nonneg (mul_nonneg h1 hB) hF
  · show 0 ≤ 4 * kB * l.rx.T * B / max l.rx.R_load (1 / 10 ^ 3)
    have hk : (0 : ℝ) ≤ 4 * kB := by norm_num [kB]
    have hden : (0 : ℝ) < max l.rx.R_load (1 / 10 ^ 3) :=
      lt_of_lt_of_le (by norm_num) (le_max_right _ _)
    exact div_nonneg (mul_nonneg (mul_nonneg hk hT) hB) hden.le
  · show 0 ≤ if 0 < Idark then 2 * q * Idark * B else 0
    split
    · next hI => exact mul_nonneg (mul_nonneg h2q hI.le) hB
    · exact le_refl 0
  · rcases rin with _ | s
    · exact le_refl 0
    · show 0 ≤ (l.rx.R_A_per_W * Rapd * Pr) ^ 2 * B * s
      exact mul_nonneg (mul_nonneg (sq_nonneg _) hB) (hrin s rfl)

/-- C5 witness: the amended statement at a concrete link and concrete
nonnegative noise parameters. -/
theorem claim5_noise_components_witness :
    0 ≤ (linkSmallLoad.noise_variances 1 2 (some 1) 1 0 1 1).shot ∧
      (linkSmallLoad.noise_variances 1 2 (some 1) 1 0 1 1).total =
        (linkSmallLoad.noise_variances 1 2 (some 1) 1 0 1 1).shot +
          (linkSmallLoad.noise_variances 1 2 (some 1) 1 0 1 1).thermal +
          (linkSmallLoad.noise_variances 1 2 (some 1) 1 0 1 1).dark +
          (linkSmallLoad.noise_variances 1 2 (some 1) 1 0 1 1).rin := by
  have h := claim5_noise_components linkSmallLoad 1 2 (some 1) 1 0 1 1
    (by norm_num) (by norm_num) (by norm_num)
    (by norm_num [linkSmallLoad, rxSmallLoad]) (by norm_num)
    (by norm_num [linkSmallLoad, rxSmallLoad]) (by norm_num)
    (by rintro s h; cases h; norm_num)
  exact ⟨h.2.2.2.2.1, h.2.2.2.2.2.2.2.2⟩

/-- C6: `snr_db` computes the linear SNR `(R·Pr)²/σ²` with the variance floored
at 1e-30 before the division (so no division by zero is reachable) and the
logarithm argument kept at least 1e-30, so the linear SNR is always
nonnegative and the dB value is bounded below by `10·log10(1e-30)` (never −∞). -/
theorem claim6_snr_guarded (l : Link) (B : ℝ) (rin : Option ℝ)
    (Idark Pbg Rapd F : ℝ) (rng : List ℝ) :
    0 ≤ l.snr_linear B rin Idark Pbg Rapd F ∧
      (0 : ℝ) < max (l.noise_variances (l.received_power_W false []).1 B rin
        Idark Pbg Rapd F).total (1 / 10 ^ 30) ∧
      (l.snr_db B rin Idark Pbg Rapd F rng).1 =
        10 * Real.logb 10 (l.snr_linear B rin Idark Pbg Rapd F + 1 / 10 ^ 30) ∧
      10 * Real.logb 10 (1 / 10 ^ 30) ≤ (l.snr_db B rin Idark Pbg Rapd F rng).1 := by
  have hmax : (0 : ℝ) < max (l.noise_variances (l.received_power_W false []).1
      B rin Idark Pbg Rapd F).total (1 / 10 ^ 30) :=
    lt_of_lt_of_le (by norm_num) (le_max_right _ _)
  have hlin : 0 ≤ l.snr_linear B rin Idark Pbg Rapd F := by
    unfold Link.snr_linear
    exact div_nonneg (sq_nonneg _) hmax.le
  refine ⟨hlin, hmax, by rw [snr_db_eq], ?_⟩
  rw [snr_db_eq]
  have harg : (1 / 10 ^ 30 : ℝ) ≤
      l.snr_linear B rin Idark Pbg Rapd F + 1 / 10 ^ 30 := by linarith
  have hlog := Real.logb_le_logb_of_le (by norm_num : (1 : ℝ) < 10)
    (by norm_num) harg
  linarith

/-- C7: `snr_db` always evaluates the deterministic received power: links that
agree on water, transmitter, receiver and geometry — but carry arbitrary,
even differing, turbulence specs with positive scintillation index — return
equal values, for any random supplies, and no randomness is consumed. -/
theorem claim7_snr_deterministic (l1 l2 : Link) (B : ℝ) (rin : Option ℝ)
    (Idark Pbg Rapd F : ℝ) (rng1 rng2 : List ℝ)
    (hw : l1.water = l2.water) (htx : l1.tx = l2.tx) (hrx : l1.rx = l2.rx)
    (hg : l1.geom = l2.geom)
    (h1 : 0 < l1.turb.scint_index) (h2 : 0 < l2.turb.scint_index) :
    (l1.snr_db B rin Idark Pbg Rapd F rng1).1 =
        (l2.snr_db B rin Idark Pbg Rapd F rng2).1 ∧
      (l1.snr_db B rin Idark Pbg Rapd F rng1).2 = rng1 := by
  obtain ⟨w1, t1, r1, g1, tb1⟩ := l1
  obtain ⟨w2, t2, r2, g2, tb2⟩ := l2
  cases hw; cases htx; cases hrx; cases hg
  rw [snr_db_eq, snr_db_eq]
  exact ⟨by rw [snr_linear_turb_invariant w1 t1 r1 g1 tb1 tb2], rfl⟩

/-- C7 witness: two concrete links differing only in their turbulence specs
(gen-gamma with σ_I² = 1/2 vs an unknown model with σ_I² = 2) give the same
`snr_db` value on different random supplies, consuming neither. -/
theorem claim7_snr_deterministic_witness :
    (linkTurbA.snr_db 1 none 0 0 1 1 [3]).1 =
        (linkTurbB.snr_db 1 none 0 0 1 1 [4]).1 ∧
      (linkTurbA.snr_db 1 none 0 0 1 1 [3]).2 = [3] :=
  claim7_snr_deterministic linkTurbA linkTurbB 1 none 0 0 1 1 [3] [4]
    rfl rfl rfl rfl (by norm_num [linkTurbA, turbGG])
    (by norm_num [linkTurbB, turbMystery])

/-- The FOV window only takes the values 1 and 0. -/
theorem window_cases (g : Geometry) (x : ℝ) :
    g.fov_window x = 1 ∨ g.fov_window x = 0 := by
  unfold Geometry.fov_window
  split
  · exact Or.inl rfl
  · exact Or.inr rfl

/-- Deterministic received power of a distance-swept link, fully expanded. -/
theorem atDistance_received (l : Link) (d : ℝ) :
    ((l.atDistance d).received_power_W false []).1 =
      l.tx.Pt_w * l.tx.eta_t * Real.exp (-l.water.c_m1 * d) *
        (if l.tx.is_laser then
          l.geom.fov_window l.geom.phi_incident_deg *
            max (l.ldNum / (Real.pi * d * d *
              (Real.tan (deg2rad (max l.tx.theta_div_deg (1 / 2))) ^ 2 +
                1 / 10 ^ 12))) 0
        else
          l.geom.fov_window l.geom.phi_incident_deg *
            max (l.ledNum /
              max (2 * Real.pi * d * d) (1 / 10 ^ 24)) 0) *
        l.rx.eta_r * 1 := by
  rw [received_power_det]
  rfl

/-- Core monotonicity step shared by both transmitter branches: a positive
guarded gain with a larger denominator and a no-larger Beer–Lambert factor
gives strictly smaller power. -/
theorem det_decrease_core (Pt et er E1 E2 N D1 D2 : ℝ)
    (hE1 : 0 < E1) (hE : E2 ≤ E1) (_hE2 : 0 < E2)
    (hD1 : 0 < D1) (hD : D1 < D2)
    (hpos : 0 < Pt * et * E1 * (1 * max (N / D1) 0) * er * 1) :
    Pt * et * E2 * (1 * max (N / D2) 0) * er * 1 <
      Pt * et * E1 * (1 * max (N / D1) 0) * er * 1 := by
  have hM1nn : 0 ≤ max (N / D1) 0 := le_max_right _ _
  have hM1ne : max (N / D1) 0 ≠ 0 := by
    intro h0
    rw [h0] at hpos
    simp at hpos
  have hM1pos : 0 < max (N / D1) 0 := hM1nn.lt_of_ne (Ne.symm hM1ne)
  have hND1 : 0 < N / D1 := by
    rcases le_or_lt (N / D1) 0 with h | h
    · exact absurd (max_eq_right h) hM1ne
    · exact h
  have hN : 0 < N := by
    rcases div_pos_iff.mp hND1 with ⟨h, _⟩ | ⟨_, hD2'⟩
    · exact h
    · linarith
  have hD2pos : 0 < D2 := lt_trans hD1 hD
  have hND2 : 0 < N / D2 := div_pos hN hD2pos
  rw [one_mul, max_eq_left hND1.le] at hpos ⊢
  rw [one_mul, max_eq_left hND2.le]
  have hK : 0 < Pt * et * er := by
    nlinarith [mul_pos hE1 hND1]
  have hlt : N / D2 < N / D1 := div_lt_div_of_pos_left hN hD1 hD
  have hstep : E2 * (N / D2) < E1 * (N / D1) :=
    lt_of_le_of_lt (mul_le_mul_of_nonneg_right hE hND2.le)
      (mul_lt_mul_of_pos_left hlt hE1)
  nlinarith [mul_lt_mul_of_pos_left hstep hK]

/-- C8 (counterexample): with the FOV window blocking (φ = 50°, FOV = 10°),
the deterministic received power is 0 at both 1 m and 2 m — not strictly
decreasing in distance. -/
theorem claim8_blocked_fov_counterexample :
    ((linkLedBlocked 1).received_power_W false []).1 = 0 ∧
      ((linkLedBlocked 2).received_power_W false []).1 = 0 ∧
      ¬ (((linkLedBlocked 2).received_power_W false []).1 <
          ((linkLedBlocked 1).received_power_W false []).1) := by
  have hb1 : ((linkLedBlocked 1).received_power_W false []).1 = 0 :=
    received_power_blocked (linkLedBlocked 1) false []
      (by
        show (10 : ℝ) < |(50 : ℝ)|
        rw [abs_of_nonneg] <;> norm_num)
  have hb2 : ((linkLedBlocked 2).received_power_W false []).1 = 0 :=
    received_power_blocked (linkLedBlocked 2) false []
      (by
        show (10 : ℝ) < |(50 : ℝ)|
        rw [abs_of_nonneg] <;> norm_num)
  exact ⟨hb1, hb2, by rw [hb1, hb2]; exact lt_irrefl 0⟩

/-- C8 (amended): the deterministic received power is strictly decreasing in
distance whenever it is positive at the shorter distance (in particular the
FOV window passes), the water coefficients are nonnegative, and — in the LED
branch — the `2πd²` guard is inactive at the shorter distance.  (When the FOV
window blocks, the power is identically 0 rather than strictly decreasing.) -/
theorem claim8_strict_decrease (l : Link) (d1 d2 : ℝ)
    (h1 : 0 < d1) (h12 : d1 < d2)
    (ha : 0 ≤ l.water.a_m1) (hb : 0 ≤ l.water.b_m1)
    (hpos : 0 < ((l.atDistance d1).received_power_W false []).1)
    (hguard : l.tx.is_laser = true ∨
      1 / 10 ^ 24 ≤ 2 * Real.pi * d1 * d1) :
    ((l.atDistance d2).received_power_W false []).1 <
      ((l.atDistance d1).received_power_W false []).1 := by
  have hc : 0 ≤ l.water.c_m1 := add_nonneg ha hb
  have hE21 : Real.exp (-l.water.c_m1 * d2) ≤ Real.exp (-l.water.c_m1 * d1) := by
    apply Real.exp_le_exp.mpr
    nlinarith
  simp only [atDistance_received] at hpos ⊢
  rcases window_cases l.geom l.geom.phi_incident_deg with hW | hW
  · rw [hW] at hpos ⊢
    cases hL : l.tx.is_laser
    · simp only [hL, Bool.false_eq_true, if_false] at hpos ⊢
      have hg : 1 / 10 ^ 24 ≤ 2 * Real.pi * d1 * d1 := by
        rcases hguard with h | h
        · rw [hL] at h; exact absurd h Bool.false_ne_true
        · exact h
      have hdd : d1 * d1 < d2 * d2 := by nlinarith
      have hg2 : 1 / 10 ^ 24 ≤ 2 * Real.pi * d2 * d2 := by
        nlinarith [Real.pi_pos, hdd]
      rw [max_eq_left hg] at hpos ⊢
      rw [max_eq_left hg2]
      exact det_decrease_core _ _ _ _ _ _ _ _ (Real.exp_pos _) hE21
        (Real.exp_pos _) (lt_of_lt_of_le (by norm_num) hg)
        (by nlinarith [Real.pi_pos, hdd]) hpos
    · simp only [hL, if_true] at hpos ⊢
      have hT : 0 < Real.tan (deg2rad (max l.tx.theta_div_deg (1 / 2))) ^ 2 +
          1 / 10 ^ 12 := by positivity
      have hD1 : 0 < Real.pi * d1 * d1 *
          (Real.tan (deg2rad (max l.tx.theta_div_deg (1 / 2))) ^ 2 +
            1 / 10 ^ 12) :=
        mul_pos (mul_pos (mul_pos Real.pi_pos h1) h1) hT
      have hdd : d1 * d1 < d2 * d2 := by nlinarith
      exact det_decrease_core _ _ _ _ _ _ _ _ (Real.exp_pos _) hE21
        (Real.exp_pos _) hD1
        (by nlinarith [mul_pos Real.pi_pos hT, hdd]) hpos
  · rw [hW] at hpos
    cases hL : l.tx.is_laser <;> simp only [hL] at hpos <;> simp at hpos

/-- Laser numerator of the axial link evaluates to π. -/
theorem linkLdAxial_ldNum (d : ℝ) : (linkLdAxial d).ldNum = Real.pi := by
  unfold Link.ldNum
  rw [show (linkLdAxial d).geom = geomAxial d from rfl,
    show (linkLdAxial d).rx = rxUnit from rfl,
    geomAxial_concentrator,
    show (geomAxial d).phi_incident_deg = 0 from rfl,
    deg2rad_zero, Real.cos_zero,
    show (geomAxial d).G_tx_optics = 1 from rfl,
    show rxUnit.A_pd_m2 = Real.pi from rfl,
    max_eq_left zero_le_one]
  ring

/-- The axial laser link has positive deterministic received power at 1 m. -/
theorem linkLdAxial_received_pos :
    0 < (((linkLdAxial 1).atDistance 1).received_power_W false []).1 := by
  rw [atDistance_received]
  rw [show (linkLdAxial 1).tx = txLd from rfl]
  simp only [show txLd.is_laser = true from rfl, if_true]
  rw [show (linkLdAxial 1).geom = geomAxial 1 from rfl,
    show (geomAxial 1).phi_incident_deg = 0 from rfl,
    geomAxial_window 1 0 (by norm_num),
    show (linkLdAxial 1).water = waterZero from rfl, waterZero_c,
    show txLd.Pt_w = 1 from rfl, show txLd.eta_t = 1 from rfl,
    show (linkLdAxial 1).rx = rxUnit from rfl,
    show rxUnit.eta_r = 1 from rfl]
  rw [show (linkLdAxial 1).ldNum = Real.pi from linkLdAxial_ldNum 1]
  have hT : 0 < Real.tan (deg2rad (max txLd.theta_div_deg (1 / 2))) ^ 2 +
      1 / 10 ^ 12 := by positivity
  have hD : 0 < Real.pi * 1 * 1 *
      (Real.tan (deg2rad (max txLd.theta_div_deg (1 / 2))) ^ 2 +
        1 / 10 ^ 12) := by positivity
  rw [max_eq_left (div_nonneg Real.pi_pos.le hD.le)]
  have hE : 0 < Real.exp (-(0 : ℝ) * 1) := Real.exp_pos _
  have hdiv : 0 < Real.pi / (Real.pi * 1 * 1 *
      (Real.tan (deg2rad (max txLd.theta_div_deg (1 / 2))) ^ 2 +
        1 / 10 ^ 12)) := div_pos Real.pi_pos hD
  nlinarith [mul_pos hE hdiv]

/-- C8 witness: the amended strict decrease at the concrete axial laser link,
between 1 m and 2 m. -/
theorem claim8_strict_decrease_witness :
    (((linkLdAxial 1).atDistance 2).received_power_W false []).1 <
      (((linkLdAxial 1).atDistance 1).received_power_W false []).1 :=
  claim8_strict_decrease (linkLdAxial 1) 1 2 (by norm_num) (by norm_num)
    (by norm_num [linkLdAxial, waterZero])
    (by norm_num [linkLdAxial, waterZero])
    linkLdAxial_received_pos
    (Or.inl rfl)

theorem exp_neg_sq_intble (a b : ℝ) :
    IntervalIntegrable (fun t : ℝ => Real.exp (-t ^ 2))
      MeasureTheory.volume a b :=
  Continuous.intervalIntegrable (by fun_prop) a b

theorem erf_strictMono : StrictMono erf := by
  intro x y hxy
  unfold erf
  have hc : (0 : ℝ) < 2 / Real.sqrt Real.pi := by positivity
  apply mul_lt_mul_of_pos_left _ hc
  have hsplit : (∫ t in (0:ℝ)..y, Real.exp (-t ^ 2)) -
      (∫ t in (0:ℝ)..x, Real.exp (-t ^ 2)) = ∫ t in x..y, Real.exp (-t ^ 2) := by
    rw [intervalIntegral.integral_interval_sub_left (exp_neg_sq_intble 0 y)
      (exp_neg_sq_intble 0 x)]
  have hpos : 0 < ∫ t in x..y, Real.exp (-t ^ 2) :=
    intervalIntegral.intervalIntegral_pos_of_pos (exp_neg_sq_intble x y)
      (fun t => Real.exp_pos _) hxy
  linarith

theorem erf_cont : Continuous erf := by
  unfold erf
  exact continuous_const.mul
    (intervalIntegral.continuous_primitive (fun a b => exp_neg_sq_intble a b) 0)

theorem erf_zero : erf 0 = 0 := by
  unfold erf
  rw [intervalIntegral.integral_same, mul_zero]

/-- The argument of the Gaussian tail in `ber_ook_from_snr_db` tends to 0 as
the dB SNR tends to −∞. -/
theorem ber_arg_tendsto_zero :
    Filter.Tendsto (fun s : ℝ => Real.sqrt ((10:ℝ) ^ (s / 10)) / Real.sqrt 2)
      Filter.atBot (nhds 0) := by
  have h1 : Filter.Tendsto (fun s : ℝ => (10:ℝ) ^ (s / 10))
      Filter.atBot (nhds 0) := by
    have he : (fun s : ℝ => (10:ℝ) ^ (s / 10)) =
        fun s : ℝ => Real.exp (Real.log 10 * (s / 10)) := by
      funext s
      rw [Real.rpow_def_of_pos (by norm_num)]
    rw [he]
    apply Real.tendsto_exp_atBot.comp
    have hlog : 0 < Real.log 10 := Real.log_pos (by norm_num)
    have hdiv : Filter.Tendsto (fun s : ℝ => s / 10) Filter.atBot
        Filter.atBot :=
      Filter.tendsto_id.atBot_div_const (by norm_num)
    exact hdiv.const_mul_atBot hlog
  have h2 : Filter.Tendsto (fun s : ℝ => Real.sqrt ((10:ℝ) ^ (s / 10)))
      Filter.atBot (nhds 0) := by
    have := (Real.continuous_sqrt.tendsto 0).comp h1
    simpa using this
  have := h2.div_const (Real.sqrt 2)
  simpa using this

/-- C9: the OOK BER equals `Q(√SNR_linear)` with `Q(x) = 0.5·erfc(x/√2)` and
`SNR_linear = 10^(snr_db/10)`; it is strictly decreasing in `snr_db`, and it
tends to exactly 0.5 as `snr_db → −∞`. -/
theorem claim9_ber_ook_properties :
    (∀ s, ber_ook_from_snr_db s = qfunc (Real.sqrt ((10:ℝ) ^ (s / 10)))) ∧
      (∀ x, qfunc x = 1 / 2 * erfc (x / Real.sqrt 2)) ∧
      StrictAnti ber_ook_from_snr_db ∧
      Filter.Tendsto ber_ook_from_snr_db Filter.atBot (nhds (1 / 2)) := by
  refine ⟨fun s => rfl, fun x => rfl, ?_, ?_⟩
  · intro s1 s2 h12
    unfold ber_ook_from_snr_db qfunc erfc
    have hlt : Real.sqrt ((10:ℝ) ^ (s1 / 10)) / Real.sqrt 2 <
        Real.sqrt ((10:ℝ) ^ (s2 / 10)) / Real.sqrt 2 := by
      apply (div_lt_div_iff_of_pos_right (by positivity)).mpr
      apply Real.sqrt_lt_sqrt (Real.rpow_nonneg (by norm_num) _)
      exact Real.rpow_lt_rpow_of_exponent_lt (by norm_num) (by linarith)
    have := erf_strictMono hlt
    linarith
  · have h2 : Filter.Tendsto
        (fun s : ℝ => erf (Real.sqrt ((10:ℝ) ^ (s / 10)) / Real.sqrt 2))
        Filter.atBot (nhds (erf 0)) :=
      (erf_cont.tendsto 0).comp ber_arg_tendsto_zero
    rw [erf_zero] at h2
    have hform : ber_ook_from_snr_db = fun s : ℝ =>
        1 / 2 * (1 - erf (Real.sqrt ((10:ℝ) ^ (s / 10)) / Real.sqrt 2)) := rfl
    rw [hform]
    have hsub : Filter.Tendsto
        (fun s : ℝ => 1 - erf (Real.sqrt ((10:ℝ) ^ (s / 10)) / Real.sqrt 2))
        Filter.atBot (nhds (1 - 0)) :=
      (tendsto_const_nhds : Filter.Tendsto (fun _ : ℝ => (1:ℝ))
        Filter.atBot (nhds 1)).sub h2
    have := hsub.const_mul (1 / 2 : ℝ)
    simpa using this

/-- C9 witness: strict decrease evaluated between 0 dB and 10 dB. -/
theorem claim9_ber_ook_properties_witness :
    ber_ook_from_snr_db 10 < ber_ook_from_snr_db 0 :=
  claim9_ber_ook_properties.2.2.1 (by norm_num : (0:ℝ) < 10)

/-- C10 witness: a concrete generalized-gamma batch [1, 3] is normalized to
[1/2, 3/2], whose mean is exactly 1. -/
theorem claim10_mean_normalization_witness :
    turbGG.fading_gain [1, 3] =
        (rawBatch turbGG [1, 3]).map (fun x => x / sampleMean (rawBatch turbGG [1, 3])) ∧
      sampleMean (turbGG.fading_gain [1, 3]) = 1 := by
  refine claim10_mean_normalization turbGG [1, 3] (by norm_num [turbGG])
    (Or.inl (by decide)) (by simp) ?_ (by norm_num [turbGG])
  intro x hx
  rcases List.mem_cons.mp hx with rfl | hx
  · norm_num
  · rcases List.mem_singleton.mp hx with rfl
    norm_num

end

end UOWC
